import Mathlib

/-!
Verification of the service lifecycle and process-control subsystem of the
`edward` service supervisor (package `services`, file `serviceconfig.go`).

The Go code is shallowly embedded: pure helpers become Lean functions, the
package-global mutable state (the persisted pid file, the session-wide
connection-table cache and its fetch counter) becomes an explicit `World`
value threaded through each operation, OS interaction (gopsutil process
queries, signal delivery) becomes an abstract `OSEnv` of fallible calls, and
Go's `(value, error)` multi-returns become pairs with an `Option String`
error slot (or `Except String` where the Go function returns early on
error).  Liveness queries take a logical clock (advanced once per query) so
that a process may die between queries, as happens when a SIGINT is honoured.
-/

namespace Edward

/-- Decimal integer parser used to model Go's `strconv.Atoi` on the pid-file
contents: an optional sign followed by at least one digit.  Range errors are
not modelled (OS pids are far below the 64-bit bound). -/
def parseDigits : List Char → Option Nat
  | [] => none
  | cs => go cs 0
where
  go : List Char → Nat → Option Nat
    | [], acc => some acc
    | c :: rest, acc =>
      if c.isDigit then go rest (acc * 10 + (c.toNat - ('0').toNat))
      else none

/-- Model of Go `strconv.Atoi`. -/
def atoi (s : String) : Option Int :=
  match s.data with
  | '-' :: rest => (parseDigits rest).map (fun n => -(n : Int))
  | '+' :: rest => (parseDigits rest).map (fun n => (n : Int))
  | cs => (parseDigits cs).map (fun n => (n : Int))

/-- Model of Go `strings.Contains hay needle`: `needle` occurs as a
contiguous substring of `hay` (true for the empty needle). -/
def strContains (hay needle : String) : Bool :=
  (List.range (hay.data.length + 1)).any
    (fun i => (hay.data.drop i).take needle.data.length == needle.data)

/-- Mirrors `LaunchChecks` (serviceconfig.go): either a log text or a set of
ports expected to be bound after launch. -/
structure LaunchChecks where
  logText : String
  ports : List Int
  deriving DecidableEq, Repr

/-- Mirrors the claim-relevant fields of `ServiceConfig` (serviceconfig.go):
the service name (identity token and pid-file key) and the optional launch
checks.  Command strings, environment overrides and presentation-only fields
(Logger) are carried by the external command-executor model instead. -/
structure ServiceConfig where
  name : String
  launchChecks : Option LaunchChecks
  deriving DecidableEq, Repr

/-- Declared launch-check ports of a service (empty when no `LaunchChecks`). -/
def declaredPorts (c : ServiceConfig) : List Int :=
  match c.launchChecks with
  | none => []
  | some lc => lc.ports

/-- Modelled from the spec: `OperationConfig` and its `IsExcluded` method are
not under src/; per the spec a service may be "excluded from the current
operation set", in which case Build/Launch/Stop are no-ops.  Modelled as the
set of excluded service names. -/
structure OperationConfig where
  exclusions : List String
  deriving DecidableEq, Repr

/-- Modelled from the spec: membership of a service in the excluded set. -/
def OperationConfig.isExcludedSvc (cfg : OperationConfig) (c : ServiceConfig) : Bool :=
  cfg.exclusions.contains c.name

/-- Mirrors the claim-relevant field of `ServiceCommand`: the pid recovered
from the persisted identity (0 when unset). -/
structure ServiceCommand where
  pid : Int
  deriving DecidableEq, Repr

/-- One row of the system-wide connection table (`gopsutil net.ConnectionStat`):
socket status, owning pid, and local port. -/
structure ConnectionStat where
  status : String
  pid : Int
  port : Int
  deriving DecidableEq, Repr

mutual
/-- Snapshot of one OS process for the port-discovery walk: its pid, whether
`Children()` enumerates successfully (`childrenOk = false` models the
process having exited mid-walk or having no child list available), and its
children. -/
inductive ProcNode : Type where
  | node (pid : Int) (childrenOk : Bool) (children : ProcForest)

/-- Ordered list of sibling `ProcNode`s. -/
inductive ProcForest : Type where
  | nil
  | cons (head : ProcNode) (tail : ProcForest)
end

/-- Result of the Go `json.Unmarshal` of one log line into
`struct{ Stream string }`: either the line is not a valid JSON record
(`invalid`), or it is valid and optionally sets the `Stream` field. -/
inductive LogLine : Type where
  | invalid
  | record (stream : Option String)
  deriving DecidableEq, Repr

/-- The package-global mutable state of one run of the tool: the persisted
pid-file contents for the service under consideration (`none` when absent),
the session-wide `connectionsCache`, a counter of `net.Connections` fetches
(for the at-most-once claim), and the logical clock of liveness queries. -/
structure World where
  pidFile : Option String
  cache : List ConnectionStat
  fetches : Nat
  clock : Nat
  deriving DecidableEq, Repr

/-- Abstract OS environment: the fallible gopsutil/syscall calls the code
makes.  `pidExists` takes the logical clock so aliveness can change between
queries (e.g. the process exits after receiving SIGINT); the remaining calls
are time-invariant snapshots, which suffices for the claims below. -/
structure OSEnv where
  pidExists : Nat → Int → Except String Bool
  newProcess : Int → Except String Unit
  cmdline : Int → Except String String
  createTime : Int → Except String Int
  sendSignal : Int → Except String Unit
  getpgid : Int → Except String Int
  /-- Modelled from the spec: `KillGroup` is not under src/; per the spec it
  sends a forceful termination signal to the entire process group. -/
  killGroup : Int → Except String Unit
  connections : Except String (List ConnectionStat)
  tree : Int → ProcNode
  runLog : Option (List LogLine)
  buildSync : ServiceCommand → World → (Except String Unit) × World
  startAsync : ServiceCommand → World → (Except String Unit) × World

/-- Signals issued to the OS, recorded for the safety claims: a SIGINT to a
single pid, or the forceful group kill to a pgid. -/
inductive SigEvent : Type where
  | sigint (pid : Int)
  | killGroup (pgid : Int)
  deriving DecidableEq, Repr

/-- Modelled from the spec: `ServiceCommand.clearState` is not under src/;
per the spec, clearing persisted state deletes the service's declared pid
record and resets the identity to the zero/unset value. -/
def clearStateW (_cmd : ServiceCommand) (w : World) : ServiceCommand × World :=
  ({ pid := 0 }, { w with pidFile := none })

/-- Mirrors `GetCommand` (serviceconfig.go:460-509): read the pid file if
present, parse it, and re-validate the identity — if the OS has no such
process, clear state; then build a process handle, fetch its command line,
and clear state when the command line does not contain the service name.
The `ReadFile` race error (file removed between `Stat` and read) is not
modelled. -/
def getCommand (c : ServiceConfig) (env : OSEnv) (w : World) :
    (Except String ServiceCommand) × World :=
  match w.pidFile with
  | none => (.ok { pid := 0 }, w)
  | some dat =>
    match atoi dat with
    | none => (.error (("invalid pid file: ") ++ dat), w)
    | some pid =>
      match env.pidExists w.clock pid with
      | .error e => (.error e, { w with clock := w.clock + 1 })
      | .ok ex =>
        let w1 : World := { w with clock := w.clock + 1 }
        let step : ServiceCommand × World :=
          if !ex then clearStateW { pid := pid } w1 else ({ pid := pid }, w1)
        match env.newProcess step.1.pid with
        | .error e => (.error e, step.2)
        | .ok _ =>
          match env.cmdline step.1.pid with
          | .error e => (.error e, step.2)
          | .ok cl =>
            if !strContains cl c.name then
              let step2 := clearStateW step.1 step.2
              (.ok step2.1, step2.2)
            else (.ok step.1, step.2)

/-- Result of `interruptProcess`: the Go `(success bool, err error)` pair,
plus the signal events issued and the updated world.  `stopped = true` means
the process was observed gone right after the SIGINT. -/
structure SigResult where
  stopped : Bool
  err : Option String
  events : List SigEvent
  world : World
  deriving DecidableEq, Repr

/-- Result of `waitForTerm`: whether the process was observed gone during the
grace-period poll, the first OS error if any, and the updated world. -/
structure WaitResult where
  stopped : Bool
  err : Option String
  world : World
  deriving DecidableEq, Repr

/-- Mirrors `interruptProcess` (serviceconfig.go:281-297): build a process
handle for the recorded pid, send SIGINT, then immediately re-check
liveness; returns success when the process is already gone. -/
def interruptProcess (env : OSEnv) (pid : Int) (w : World) : SigResult :=
  match env.newProcess pid with
  | .error e => { stopped := false, err := some e, events := [], world := w }
  | .ok _ =>
    match env.sendSignal pid with
    | .error e => { stopped := false, err := some e, events := [.sigint pid], world := w }
    | .ok _ =>
      match env.pidExists w.clock pid with
      | .error e =>
        { stopped := false, err := some e, events := [.sigint pid]
          world := { w with clock := w.clock + 1 } }
      | .ok ex =>
        { stopped := !ex, err := none, events := [.sigint pid]
          world := { w with clock := w.clock + 1 } }

/-- Mirrors `killProcess` (serviceconfig.go:299-311): resolve the process
group of the recorded pid; refuse to escalate on a degenerate group id (0 or
1); otherwise send the forceful group kill via `KillGroup` and return
`stopped = true` together with any delivery error. -/
def killProcess (_c : ServiceConfig) (env : OSEnv) (pid : Int) (w : World) : SigResult :=
  match env.getpgid pid with
  | .error e => { stopped := false, err := some e, events := [], world := w }
  | .ok pgid =>
    if pgid == 0 || pgid == 1 then
      { stopped := false, err := some (("suspect pgid: ") ++ toString pgid)
        events := [], world := w }
    else
      match env.killGroup pgid with
      | .error e => { stopped := true, err := some e, events := [.killGroup pgid], world := w }
      | .ok _ => { stopped := true, err := none, events := [.killGroup pgid], world := w }

/-- Mirrors `waitForTerm` (serviceconfig.go:313-325): poll `PidExists` every
100ms for up to the timeout; the fuel argument is the number of loop
iterations (`elapsed = 0, 100ms, …, timeout` inclusive). -/
def waitForTerm (env : OSEnv) (pid : Int) (w : World) : Nat → WaitResult
  | 0 => { stopped := false, err := none, world := w }
  | n + 1 =>
    match env.pidExists w.clock pid with
    | .error e => { stopped := false, err := some e, world := { w with clock := w.clock + 1 } }
    | .ok ex =>
      if !ex then { stopped := true, err := none, world := { w with clock := w.clock + 1 } }
      else waitForTerm env pid { w with clock := w.clock + 1 } n

/-- Iterations of the grace-period poll in `Stop`: `waitForTerm(command,
time.Second*5)` with a 100ms step runs the check for
`elapsed = 0, 100, …, 5000` ms, i.e. 51 times. -/
def stopWaitIters : Nat := 5000 / 100 + 1

/-- Outcome reported through the `CommandTracker`.  Modelled from the spec:
`CommandTracker` is not under src/; per the spec an operation ends in
success, a soft (non-fatal, informational) failure, or a hard failure. -/
inductive TrackerOutcome : Type where
  | success
  | softFail (msg : String)
  | fail (msg : String)
  deriving DecidableEq, Repr

/-- Result of `Stop`: the Go return value (`ret = some e` iff Stop returned a
non-nil error), the tracker outcome (`none` when the service was excluded and
the tracker never reported), the signals issued, and the final world. -/
structure StopResult where
  ret : Option String
  outcome : Option TrackerOutcome
  events : List SigEvent
  world : World
  deriving DecidableEq, Repr

/-- Mirrors `Stop` (serviceconfig.go:225-279): no-op when excluded; load and
re-validate the identity via `GetCommand` (its error is the only non-nil
return); soft-fail "Not running" when the pid is unset; otherwise interrupt,
wait for up to the grace period, then force-kill the process group, aborting
with a tracker hard failure at the first OS error; clear persisted state
only on the clean-stop path. -/
def stop (c : ServiceConfig) (cfg : OperationConfig) (env : OSEnv) (w : World) : StopResult :=
  if cfg.isExcludedSvc c then { ret := none, outcome := none, events := [], world := w }
  else
    match getCommand c env w with
    | (.error e, w1) => { ret := some e, outcome := none, events := [], world := w1 }
    | (.ok cmd, w1) =>
      if cmd.pid == 0 then
        { ret := none, outcome := some (.softFail ("Not running")), events := [], world := w1 }
      else
        let r1 := interruptProcess env cmd.pid w1
        match r1.err with
        | some e => { ret := none, outcome := some (.fail e), events := r1.events, world := r1.world }
        | none =>
          if !r1.stopped then
            let r2 := waitForTerm env cmd.pid r1.world stopWaitIters
            match r2.err with
            | some e => { ret := none, outcome := some (.fail e), events := r1.events, world := r2.world }
            | none =>
              if !r2.stopped then
                let r3 := killProcess c env cmd.pid r2.world
                match r3.err with
                | some e =>
                  { ret := none, outcome := some (.fail e)
                    events := r1.events ++ r3.events, world := r3.world }
                | none =>
                  if r3.stopped then
                    { ret := none, outcome := some (.softFail ("Killed"))
                      events := r1.events ++ r3.events, world := r3.world }
                  else
                    { ret := none, outcome := some (.fail ("Process was not killed"))
                      events := r1.events ++ r3.events, world := r3.world }
              else
                let step := clearStateW cmd r2.world
                { ret := none, outcome := some .success, events := r1.events, world := step.2 }
          else
            let step := clearStateW cmd r1.world
            { ret := none, outcome := some .success, events := r1.events, world := step.2 }

/-- The LISTEN-state ports of `pid` in the connection table that are not
among the declared (`knownPorts`) launch-check ports, rendered as decimal
strings (the loop body of `doGetPorts`, serviceconfig.go:421-427). -/
def connListenPorts (known : List Int) (cache : List ConnectionStat) (pid : Int) : List String :=
  cache.filterMap (fun conn =>
    if conn.status == ("LISTEN") && conn.pid == pid && !(known.contains conn.port)
    then some (toString conn.port) else none)

mutual
/-- Mirrors `doGetPorts` (serviceconfig.go:405-441): populate the session
connection cache if (and only if) it is empty, failing on a fetch error;
collect this process's undeclared LISTEN ports; then recurse into the
children, skipping the subtree when `Children()` fails and skipping any
child whose recursive call fails. -/
def doGetPorts (c : ServiceConfig) (env : OSEnv) (p : ProcNode) (w : World) :
    (Except String (List String)) × World :=
  match p with
  | .node pid ok children =>
    let fetched : (Except String Unit) × World :=
      if w.cache.isEmpty then
        match env.connections with
        | .error e => (.error e, { w with cache := [], fetches := w.fetches + 1 })
        | .ok conns => (.ok (), { w with cache := conns, fetches := w.fetches + 1 })
      else (.ok (), w)
    match fetched with
    | (.error e, w1) => (.error e, w1)
    | (.ok _, w1) =>
      let own := connListenPorts (declaredPorts c) w1.cache pid
      if !ok then (.ok own, w1)
      else
        let rest := doGetPortsChildren c env children w1
        (.ok (own ++ rest.1), rest.2)

/-- The child loop of `doGetPorts`: recurse into each child in order,
appending its ports when the recursive call succeeds and dropping them when
it fails. -/
def doGetPortsChildren (c : ServiceConfig) (env : OSEnv) (l : ProcForest) (w : World) :
    List String × World :=
  match l with
  | .nil => ([], w)
  | .cons ch rest =>
    let r := doGetPorts c env ch w
    let childPorts : List String :=
      match r.1 with
      | .ok ps => ps
      | .error _ => []
    let rr := doGetPortsChildren c env rest r.2
    (childPorts ++ rr.1, rr.2)
end

/-- Mirrors `getPorts` (serviceconfig.go:366-377): the discovered ports
followed by the declared launch-check ports rendered as strings. -/
def getPorts (c : ServiceConfig) (env : OSEnv) (p : ProcNode) (w : World) :
    (Except String (List String)) × World :=
  match doGetPorts c env p w with
  | (.error e, w1) => (.error e, w1)
  | (.ok ports, w1) =>
    (.ok (ports ++ (declaredPorts c).map (fun port => toString port)), w1)

/-- True on lines whose `json.Unmarshal` failed. -/
def LogLine.isInvalid : LogLine → Bool
  | .invalid => true
  | .record _ => false

/-- The scanner loop of `getLogCounts` (serviceconfig.go:389-401): `cur` is
the `lineData.Stream` field, declared outside the loop in the source, so a
valid record without a `stream` key inherits the previous value; lines whose
unmarshal fails are skipped. -/
def getLogCountsGo : List LogLine → String → Nat → Nat → Nat × Nat
  | [], _, so, se => (so, se)
  | .invalid :: rest, cur, so, se => getLogCountsGo rest cur so se
  | .record str :: rest, cur, so, se =>
    let cur1 := str.getD cur
    getLogCountsGo rest cur1
      (if cur1 == ("stdout") then so + 1 else so)
      (if cur1 == ("stderr") then se + 1 else se)

/-- Mirrors `getLogCounts` (serviceconfig.go:379-403): `(0, 0)` when the run
log cannot be opened, otherwise the counts of records tagged `stdout` and
`stderr`. -/
def getLogCounts (env : OSEnv) : Nat × Nat :=
  match env.runLog with
  | none => (0, 0)
  | some lines => getLogCountsGo lines ("") 0 0

/-- Stopped/running discriminator of `ServiceStatus`. -/
inductive StatusKind : Type where
  | stopped
  | running
  deriving DecidableEq, Repr

/-- Mirrors the claim-relevant fields of `ServiceStatus`: the discriminator
plus pid, start time (seconds since the epoch), reported ports, and log line
counts, all zero-valued when stopped. -/
structure ServiceStatus where
  status : StatusKind
  pid : Int
  startTime : Int
  ports : List String
  stdoutCount : Nat
  stderrCount : Nat
  deriving DecidableEq, Repr

/-- The zero-valued Stopped status `Status` builds before examining the pid. -/
def stoppedStatus : ServiceStatus :=
  { status := .stopped, pid := 0, startTime := 0, ports := [], stdoutCount := 0
    stderrCount := 0 }

/-- Mirrors `Status` (serviceconfig.go:328-361): load and re-validate the
identity via `GetCommand`; report the zero-valued Stopped status when the
pid is unset; otherwise build a process handle, read its creation time,
discover ports over the process tree and count log lines, propagating any
error.  (The source wraps the single status in a one-element slice.) -/
def statusOf (c : ServiceConfig) (env : OSEnv) (w : World) :
    (Except String ServiceStatus) × World :=
  match getCommand c env w with
  | (.error e, w1) => (.error e, w1)
  | (.ok cmd, w1) =>
    if cmd.pid == 0 then (.ok stoppedStatus, w1)
    else
      match env.newProcess cmd.pid with
      | .error e => (.error e, w1)
      | .ok _ =>
        match env.createTime cmd.pid with
        | .error e => (.error e, w1)
        | .ok epochStart =>
          let portsRes := getPorts c env (env.tree cmd.pid) w1
          let counts := getLogCounts env
          match portsRes.1 with
          | .error e => (.error e, portsRes.2)
          | .ok ports =>
            (.ok { status := .running, pid := cmd.pid
                   startTime := Int.tdiv epochStart 1000, ports := ports
                   stdoutCount := counts.1, stderrCount := counts.2 }, portsRes.2)

/-- Mirrors `Build` (serviceconfig.go:185-195): no-op when excluded,
otherwise load the command state and run the build synchronously through the
external command executor. -/
def build (c : ServiceConfig) (cfg : OperationConfig) (env : OSEnv) (w : World) :
    (Except String Unit) × World :=
  if cfg.isExcludedSvc c then (.ok (), w)
  else
    match getCommand c env w with
    | (.error e, w1) => (.error e, w1)
    | (.ok cmd, w1) => env.buildSync cmd w1

/-- Mirrors `Launch` (serviceconfig.go:198-208): no-op when excluded,
otherwise load the command state and start the service asynchronously
through the external command executor. -/
def launch (c : ServiceConfig) (cfg : OperationConfig) (env : OSEnv) (w : World) :
    (Except String Unit) × World :=
  if cfg.isExcludedSvc c then (.ok (), w)
  else
    match getCommand c env w with
    | (.error e, w1) => (.error e, w1)
    | (.ok cmd, w1) => env.startAsync cmd w1

/-- Mirrors `Start` (serviceconfig.go:211-222): no-op when excluded,
otherwise `Build` then `Launch`, returning the first failure. -/
def start (c : ServiceConfig) (cfg : OperationConfig) (env : OSEnv) (w : World) :
    (Except String Unit) × World :=
  if cfg.isExcludedSvc c then (.ok (), w)
  else
    match build c cfg env w with
    | (.error e, w1) => (.error e, w1)
    | (.ok _, w1) => launch c cfg env w1

/-- Spec-side composition ("`Start()` = `Build()` then `Launch()`,
short-circuiting on the first failure"), to be compared with `start`. -/
def buildThenLaunch (c : ServiceConfig) (cfg : OperationConfig) (env : OSEnv) (w : World) :
    (Except String Unit) × World :=
  match build c cfg env w with
  | (.error e, w1) => (.error e, w1)
  | (.ok _, w1) => launch c cfg env w1

/-- All LISTEN-state ports of `pid` in the connection table, with no
exclusion of declared ports (spec-side "discovered" ports of one process). -/
def allListen (cache : List ConnectionStat) (pid : Int) : List Int :=
  cache.filterMap (fun conn =>
    if conn.status == ("LISTEN") && conn.pid == pid then some conn.port else none)

mutual
/-- Spec-side pure reading of the discovery walk over a fixed connection
table: the undeclared LISTEN ports of the node followed by those of its
children (skipped when the child enumeration failed). -/
def discoveredPorts (known : List Int) (cache : List ConnectionStat) : ProcNode → List String
  | .node pid ok children =>
    connListenPorts known cache pid ++
      (if ok then discoveredPortsF known cache children else [])

/-- Forest version of `discoveredPorts`. -/
def discoveredPortsF (known : List Int) (cache : List ConnectionStat) : ProcForest → List String
  | .nil => []
  | .cons p rest => discoveredPorts known cache p ++ discoveredPortsF known cache rest
end

mutual
/-- All LISTEN ports attributable to the node or any reachable descendant
(no exclusion), the "discovered" set the spec unions with the declared
ports. -/
def treePorts (cache : List ConnectionStat) : ProcNode → List Int
  | .node pid ok children =>
    allListen cache pid ++ (if ok then treePortsF cache children else [])

/-- Forest version of `treePorts`. -/
def treePortsF (cache : List ConnectionStat) : ProcForest → List Int
  | .nil => []
  | .cons p rest => treePorts cache p ++ treePortsF cache rest
end

mutual
/-- When the session connection cache is already populated, the discovery
walk performs no fetch, leaves the world untouched, and returns exactly the
pure `discoveredPorts` reading of the cached table. -/
theorem doGetPorts_cache_nonempty (c : ServiceConfig) (env : OSEnv) (p : ProcNode)
    (w : World) (h : w.cache.isEmpty = false) :
    doGetPorts c env p w = (.ok (discoveredPorts (declaredPorts c) w.cache p), w) := by
  cases p with
  | node pid ok children =>
    cases ok with
    | false =>
      rw [doGetPorts, discoveredPorts]
      simp [h]
    | true =>
      rw [doGetPorts, discoveredPorts]
      have hc := doGetPortsChildren_cache_nonempty c env children w h
      simp [h, hc]

/-- Forest version of `doGetPorts_cache_nonempty`. -/
theorem doGetPortsChildren_cache_nonempty (c : ServiceConfig) (env : OSEnv)
    (l : ProcForest) (w : World) (h : w.cache.isEmpty = false) :
    doGetPortsChildren c env l w = (discoveredPortsF (declaredPorts c) w.cache l, w) := by
  cases l with
  | nil => rw [doGetPortsChildren, discoveredPortsF]
  | cons ch rest =>
    rw [doGetPortsChildren, discoveredPortsF]
    have h1 := doGetPorts_cache_nonempty c env ch w h
    have h2 := doGetPortsChildren_cache_nonempty c env rest w h
    simp [h1, h2]
end

theorem interruptProcess_world_pidFile (env : OSEnv) (pid : Int) (w : World) :
    (interruptProcess env pid w).world.pidFile = w.pidFile := by
  unfold interruptProcess
  split
  · rfl
  · split
    · rfl
    · split <;> rfl

theorem killProcess_world (c : ServiceConfig) (env : OSEnv) (pid : Int) (w : World) :
    (killProcess c env pid w).world = w := by
  unfold killProcess
  split
  · rfl
  · split
    · rfl
    · split <;> rfl

theorem waitForTerm_world_pidFile (env : OSEnv) (pid : Int) :
    ∀ (n : Nat) (w : World), (waitForTerm env pid w n).world.pidFile = w.pidFile
  | 0, _ => rfl
  | n + 1, w => by
    unfold waitForTerm
    split
    · rfl
    · split
      · rfl
      · exact waitForTerm_world_pidFile env pid n { w with clock := w.clock + 1 }

theorem waitForTerm_alive (env : OSEnv) (pid : Int)
    (halive : ∀ t, env.pidExists t pid = .ok true) :
    ∀ (n : Nat) (w : World),
      waitForTerm env pid w n =
        { stopped := false, err := none, world := { w with clock := w.clock + n } }
  | 0, w => by simp [waitForTerm]
  | n + 1, w => by
    rw [waitForTerm, halive w.clock]
    simp only [Bool.not_true, Bool.false_eq_true, if_false]
    rw [waitForTerm_alive env pid halive n { w with clock := w.clock + 1 }]
    simp only [WaitResult.mk.injEq, World.mk.injEq, true_and, and_true]
    omega

theorem mem_connListenPorts (known : List Int) (cache : List ConnectionStat)
    (pid : Int) (s : String) :
    s ∈ connListenPorts known cache pid ↔
      ∃ x, x ∈ allListen cache pid ∧ known.contains x = false ∧ s = toString x := by
  simp only [connListenPorts, allListen, List.mem_filterMap]
  constructor
  · rintro ⟨conn, hmem, hf⟩
    split at hf
    case isTrue hcond =>
      simp only [Bool.and_eq_true, Bool.not_eq_true', beq_iff_eq] at hcond
      cases hf
      exact ⟨conn.port, ⟨conn, hmem, by simp [hcond.1.1, hcond.1.2]⟩, hcond.2, rfl⟩
    case isFalse => cases hf
  · rintro ⟨x, ⟨conn, hmem, hf⟩, hk, rfl⟩
    split at hf
    case isTrue hcond =>
      simp only [Bool.and_eq_true, beq_iff_eq] at hcond
      cases hf
      refine ⟨conn, hmem, ?_⟩
      simp only [hcond.1, hcond.2]
      simpa using hk
    case isFalse => cases hf

mutual
/-- Node form: the discovered (undeclared) port strings are exactly the
renderings of the tree's LISTEN ports that are not declared. -/
theorem mem_discoveredPorts (known : List Int) (cache : List ConnectionStat)
    (p : ProcNode) (s : String) :
    s ∈ discoveredPorts known cache p ↔
      ∃ x, x ∈ treePorts cache p ∧ known.contains x = false ∧ s = toString x := by
  cases p with
  | node pid ok children =>
    cases ok with
    | false =>
      rw [discoveredPorts, treePorts]
      simp only [Bool.false_eq_true, if_false, List.append_nil]
      exact mem_connListenPorts known cache pid s
    | true =>
      rw [discoveredPorts, treePorts]
      simp only [if_true, List.mem_append, mem_connListenPorts,
        mem_discoveredPortsF known cache children s]
      constructor
      · rintro (⟨x, hx, hk, rfl⟩ | ⟨x, hx, hk, rfl⟩)
        · exact ⟨x, Or.inl hx, hk, rfl⟩
        · exact ⟨x, Or.inr hx, hk, rfl⟩
      · rintro ⟨x, hx | hx, hk, rfl⟩
        · exact Or.inl ⟨x, hx, hk, rfl⟩
        · exact Or.inr ⟨x, hx, hk, rfl⟩

/-- Forest form of `mem_discoveredPorts`. -/
theorem mem_discoveredPortsF (known : List Int) (cache : List ConnectionStat)
    (l : ProcForest) (s : String) :
    s ∈ discoveredPortsF known cache l ↔
      ∃ x, x ∈ treePortsF cache l ∧ known.contains x = false ∧ s = toString x := by
  cases l with
  | nil =>
    rw [discoveredPortsF, treePortsF]
    simp
  | cons p rest =>
    rw [discoveredPortsF, treePortsF]
    simp only [List.mem_append, mem_discoveredPorts known cache p s,
      mem_discoveredPortsF known cache rest s]
    constructor
    · rintro (⟨x, hx, hk, rfl⟩ | ⟨x, hx, hk, rfl⟩)
      · exact ⟨x, Or.inl hx, hk, rfl⟩
      · exact ⟨x, Or.inr hx, hk, rfl⟩
    · rintro ⟨x, hx | hx, hk, rfl⟩
      · exact Or.inl ⟨x, hx, hk, rfl⟩
      · exact Or.inr ⟨x, hx, hk, rfl⟩
end

/-- Example service used for concrete runs: name `api`, no launch checks. -/
def apiSvc : ServiceConfig := { name := ("api"), launchChecks := none }

/-- Example service used for concrete runs: name `db`, no launch checks. -/
def dbSvc : ServiceConfig := { name := ("db"), launchChecks := none }

/-- Operation set that excludes nothing. -/
def cfgNone : OperationConfig := { exclusions := [] }

/-- Operation set that excludes `api`. -/
def cfgExcludeApi : OperationConfig := { exclusions := [("api")] }

/-- OS snapshot in which no queried process exists: liveness queries answer
false and process handles cannot be built (the behaviour of the gopsutil
calls on a pid with no live process). -/
def deadPidEnv : OSEnv where
  pidExists := fun _ _ => .ok false
  newProcess := fun _ => .error ("process does not exist")
  cmdline := fun _ => .error ("process does not exist")
  createTime := fun _ => .error ("process does not exist")
  sendSignal := fun _ => .error ("no such process")
  getpgid := fun _ => .error ("no such process")
  killGroup := fun _ => .ok ()
  connections := .ok []
  tree := fun pid => .node pid true .nil
  runLog := none
  buildSync := fun _ w => (.ok (), w)
  startAsync := fun _ w => (.ok (), w)

/-- OS snapshot in which every queried process is alive forever, runs the
`api` service binary, and ignores SIGINT; its process group id equals its
pid and the group kill succeeds. -/
def aliveEnv : OSEnv := { deadPidEnv with
  pidExists := fun _ _ => .ok true
  newProcess := fun _ => .ok ()
  cmdline := fun _ => .ok ("api --serve")
  sendSignal := fun _ => .ok ()
  getpgid := fun p => .ok p
  killGroup := fun _ => .ok () }

/-- Worlds with a persisted pid record and a cold connection cache. -/
def w42 : World := { pidFile := some ("42"), cache := [], fetches := 0, clock := 0 }

/-- Like `w42` for the pid record `77`. -/
def w77 : World := { pidFile := some ("77"), cache := [], fetches := 0, clock := 0 }

/-- Like `w42` for the pid record `43`. -/
def w43 : World := { pidFile := some ("43"), cache := [], fetches := 0, clock := 0 }

/-- World with no persisted identity. -/
def wEmpty : World := { pidFile := none, cache := [], fetches := 0, clock := 0 }

/-- C1: the claim says a stale persisted identity whose recorded pid has no
live OS process is recovered silently: Status should return Stopped rather
than failing.  On the code, `GetCommand` does clear the identity but then
goes on to build a process handle and fetch the command line for the
now-cleared pid 0, which fails when no such process exists, so `Status`
returns an error instead of a Stopped status.  Concretely: pid record `42`,
no live process — Status yields an error (and the cleared pid record). -/
theorem status_fails_on_dead_recorded_pid :
    (statusOf apiSvc deadPidEnv w42).1 = .error ("process does not exist") ∧
    (statusOf apiSvc deadPidEnv w42).1.toOption = none ∧
    (statusOf apiSvc deadPidEnv w42).2.pidFile = none := by
  refine ⟨rfl, rfl, rfl⟩

/-- C2 counterexample: after the force-kill succeeds ("Killed" soft
outcome), `Stop` returns with the persisted pid record still present — the
claim that the identity is cleared before Stop returns on the "killed"
outcome is false on the code. -/
theorem stop_killed_leaves_pid_record :
    (stop apiSvc cfgNone aliveEnv w42).outcome = some (.softFail ("Killed")) ∧
    (stop apiSvc cfgNone aliveEnv w42).world.pidFile = some ("42") := by
  refine ⟨rfl, rfl⟩

/-- C2 amended: the persisted identity is cleared before Stop returns
exactly on the clean-stop outcome; on the "killed" soft outcome Stop
returns with the pid record exactly as identity re-validation left it
(clearing is deferred to a later re-validation). -/
theorem stop_clears_identity_only_on_clean_stop (c : ServiceConfig) (cfg : OperationConfig)
    (env : OSEnv) (w : World) (hex : cfg.isExcludedSvc c = false) :
    ((stop c cfg env w).outcome = some .success → (stop c cfg env w).world.pidFile = none) ∧
    ((stop c cfg env w).outcome = some (.softFail ("Killed")) →
      (stop c cfg env w).world.pidFile = (getCommand c env w).2.pidFile) := by
  rcases hgc : getCommand c env w with ⟨res, w1⟩
  simp only [stop, hex, Bool.false_eq_true, if_false, hgc]
  cases res with
  | error e => simp
  | ok cmd =>
    by_cases hp : (cmd.pid == 0) = true
    · simp [hp]
    · simp only [Bool.not_eq_true] at hp
      simp only [hp, Bool.false_eq_true, if_false]
      rcases h1 : (interruptProcess env cmd.pid w1).err with _ | e
      · by_cases hs1 : (interruptProcess env cmd.pid w1).stopped
        · simp only [hs1, Bool.not_true, Bool.false_eq_true, if_false]
          refine ⟨fun _ => rfl, fun hcontra => by simp at hcontra⟩
        · simp only [Bool.not_eq_true] at hs1
          simp only [hs1, Bool.not_false, if_true]
          rcases h2 : (waitForTerm env cmd.pid (interruptProcess env cmd.pid w1).world
              stopWaitIters).err with _ | e
          · by_cases hs2 : (waitForTerm env cmd.pid (interruptProcess env cmd.pid w1).world
                stopWaitIters).stopped
            · simp only [hs2, Bool.not_true, Bool.false_eq_true, if_false]
              refine ⟨fun _ => rfl, fun hcontra => by simp at hcontra⟩
            · simp only [Bool.not_eq_true] at hs2
              simp only [hs2, Bool.not_false, if_true]
              rcases h3 : (killProcess c env cmd.pid
                  (waitForTerm env cmd.pid (interruptProcess env cmd.pid w1).world
                    stopWaitIters).world).err with _ | e
              · by_cases hs3 : (killProcess c env cmd.pid
                    (waitForTerm env cmd.pid (interruptProcess env cmd.pid w1).world
                      stopWaitIters).world).stopped
                · simp only [hs3, if_true]
                  refine ⟨fun hcontra => by simp at hcontra, fun _ => ?_⟩
                  rw [killProcess_world, waitForTerm_world_pidFile,
                    interruptProcess_world_pidFile]
                · simp only [hs3, Bool.false_eq_true, if_false]
                  refine ⟨fun hcontra => by simp at hcontra,
                    fun hcontra => by simp at hcontra⟩
              · simp
          · simp
      · simp

/-- C2 witness: a process that honours SIGINT (alive at the re-validation
query, gone at the post-interrupt check) is stopped cleanly, and the pid
record is indeed cleared before Stop returns. -/
def dieOnSigintEnv : OSEnv := { aliveEnv with
  pidExists := fun t _ => .ok (t == 0) }

theorem stop_clears_identity_only_on_clean_stop_witness :
    (stop apiSvc cfgNone dieOnSigintEnv w42).world.pidFile = none := by
  exact (stop_clears_identity_only_on_clean_stop apiSvc cfgNone dieOnSigintEnv w42 rfl).1 rfl

/-- C4: Stop on a service whose persisted identity is absent returns success
overall (`ret = none`), reports the soft "Not running" outcome, sends no OS
signal, and leaves the world untouched. -/
theorem stop_absent_identity_soft_not_running (c : ServiceConfig) (cfg : OperationConfig)
    (env : OSEnv) (w : World)
    (hex : cfg.isExcludedSvc c = false) (hpf : w.pidFile = none) :
    stop c cfg env w =
      { ret := none, outcome := some (.softFail ("Not running")), events := [], world := w } := by
  simp [stop, getCommand, hex, hpf]

/-- C4 witness at a concrete service and empty world. -/
theorem stop_absent_identity_soft_not_running_witness :
    stop apiSvc cfgNone deadPidEnv wEmpty =
      { ret := none, outcome := some (.softFail ("Not running")), events := []
        world := wEmpty } := by
  exact stop_absent_identity_soft_not_running apiSvc cfgNone deadPidEnv wEmpty rfl rfl

/-- C3: on a Stop escalation against a process still alive after the grace
period, a resolved process-group id of 0 or 1 means no kill signal is issued
and the step is a tracker hard failure; for any other group id, with the
delivery succeeding, exactly one forceful group kill targeting that group id
is issued and the operation reports the "Killed" soft outcome. -/
theorem stop_escalation_group_guard (c : ServiceConfig) (cfg : OperationConfig)
    (env : OSEnv) (w : World) (p g : Int) (w1 : World)
    (hex : cfg.isExcludedSvc c = false)
    (hgc : getCommand c env w = (.ok { pid := p }, w1))
    (hp : (p == 0) = false)
    (hnp : env.newProcess p = .ok ())
    (hsig : env.sendSignal p = .ok ())
    (halive : ∀ t, env.pidExists t p = .ok true)
    (hpg : env.getpgid p = .ok g) :
    ((g = 0 ∨ g = 1) →
      (stop c cfg env w).outcome = some (.fail (("suspect pgid: ") ++ toString g)) ∧
      (stop c cfg env w).events = [.sigint p]) ∧
    (g ≠ 0 → g ≠ 1 → env.killGroup g = .ok () →
      (stop c cfg env w).outcome = some (.softFail ("Killed")) ∧
      (stop c cfg env w).events = [.sigint p, .killGroup g]) := by
  have hint : interruptProcess env p w1 =
      { stopped := false, err := none, events := [.sigint p]
        world := { w1 with clock := w1.clock + 1 } } := by
    simp [interruptProcess, hnp, hsig, halive]
  have hwait := waitForTerm_alive env p halive stopWaitIters { w1 with clock := w1.clock + 1 }
  constructor
  · intro hg
    have hgb : (g == 0 || g == 1) = true := by
      rcases hg with rfl | rfl <;> simp
    simp [stop, hex, hgc, hp, hint, hwait, killProcess, hpg, hgb]
  · intro h0 h1 hkg
    have hgb : (g == 0 || g == 1) = false := by simp [h0, h1]
    simp [stop, hex, hgc, hp, hint, hwait, killProcess, hpg, hgb, hkg]

/-- C3 witness: pid record 43, interrupt-ignoring process with process-group
id 43; the escalation issues exactly one group kill and reports "Killed". -/
theorem stop_escalation_group_guard_witness :
    (stop apiSvc cfgNone aliveEnv w43).outcome = some (.softFail ("Killed")) ∧
    (stop apiSvc cfgNone aliveEnv w43).events = [.sigint 43, .killGroup 43] := by
  exact (stop_escalation_group_guard apiSvc cfgNone aliveEnv w43 43 43
    { w43 with clock := 1 } rfl rfl rfl rfl rfl (fun _ => rfl) rfl).2
    (by decide) (by decide) rfl

/-- OS snapshot like `aliveEnv` except SIGINT delivery fails. -/
def sigFailEnv : OSEnv := { aliveEnv with
  sendSignal := fun _ => .error ("operation not permitted") }

/-- C6 counterexample: an OS-level failure (SIGINT delivery fails) is
recorded only as the tracker's hard-failure outcome; `Stop` itself returns
nil (`ret = none`) to its caller, so the failure is not surfaced through
Stop's return value as the claim states. -/
theorem stop_os_failure_not_returned_to_caller :
    (stop apiSvc cfgNone sigFailEnv w42).ret = none ∧
    (stop apiSvc cfgNone sigFailEnv w42).outcome =
      some (.fail ("operation not permitted")) ∧
    (stop apiSvc cfgNone sigFailEnv w42).events = [.sigint 42] := by
  refine ⟨rfl, rfl, rfl⟩

/-- C6 amended: once the persisted identity loads successfully, Stop always
returns nil to its Go caller; an OS-call failure (here: SIGINT delivery)
aborts the remaining escalation steps — no force-kill is attempted, no state
is cleared — and is surfaced only as the tracked operation's hard-failure
outcome carrying the error. -/
theorem stop_os_failures_tracked_not_returned (c : ServiceConfig) (cfg : OperationConfig)
    (env : OSEnv) (w : World) (cmd : ServiceCommand) (w1 : World)
    (hex : cfg.isExcludedSvc c = false)
    (hgc : getCommand c env w = (.ok cmd, w1)) :
    (stop c cfg env w).ret = none ∧
    (∀ e, (cmd.pid == 0) = false → env.newProcess cmd.pid = .ok () →
      env.sendSignal cmd.pid = .error e →
      stop c cfg env w =
        { ret := none, outcome := some (.fail e), events := [.sigint cmd.pid]
          world := w1 }) := by
  constructor
  · simp only [stop, hex, Bool.false_eq_true, if_false, hgc]
    repeat' split
    all_goals rfl
  · intro e hp hnp hsig
    have hint : interruptProcess env cmd.pid w1 =
        { stopped := false, err := some e, events := [.sigint cmd.pid], world := w1 } := by
      simp [interruptProcess, hnp, hsig]
    simp [stop, hex, hgc, hp, hint]

/-- C6 witness: concrete run where SIGINT delivery fails. -/
theorem stop_os_failures_tracked_not_returned_witness :
    stop apiSvc cfgNone sigFailEnv w42 =
      { ret := none, outcome := some (.fail ("operation not permitted"))
        events := [.sigint 42], world := { w42 with clock := 1 } } := by
  exact (stop_os_failures_tracked_not_returned apiSvc cfgNone sigFailEnv w42
    { pid := 42 } { w42 with clock := 1 } rfl rfl).2
    ("operation not permitted") rfl rfl rfl

/-- OS snapshot for the port-discovery counterexample: the root process (no
sockets of its own) has two children, each with a LISTEN socket on port 7. -/
def dupConnEnv : OSEnv := { aliveEnv with
  createTime := fun _ => .ok 1700000000000
  connections := .ok [{ status := ("LISTEN"), pid := 11, port := 7 },
                      { status := ("LISTEN"), pid := 12, port := 7 }]
  tree := fun pid => .node pid true
    (.cons (.node 11 true .nil) (.cons (.node 12 true .nil) .nil)) }

/-- World with pid record `10` and a cold connection cache. -/
def w10 : World := { pidFile := some ("10"), cache := [], fetches := 0, clock := 0 }

/-- C5 counterexample: a running process with two listening children on the
same (undeclared) port is reported with the port listed twice — the ports
reported by Status are not deduplicated (they are only filtered against the
declared launch-check ports). -/
theorem status_ports_duplicated_across_children :
    (statusOf apiSvc dupConnEnv w10).1 =
      .ok { status := .running, pid := 10, startTime := 1700000000
            ports := [("7"), ("7")], stdoutCount := 0, stderrCount := 0 } ∧
    ([("7"), ("7")] : List String).Nodup = False := by
  refine ⟨rfl, by simp⟩

/-- C5 amended: for a running service (validated identity, live process,
warm connection cache) Status reports the running state and its reported
ports equal, as a set, the declared launch-check ports unioned with the
LISTEN ports discovered for the process and every descendant; duplicates
among the discovered ports are not removed (see the counterexample), only
ports already declared are excluded from the discovered part. -/
theorem status_ports_declared_union_discovered (c : ServiceConfig) (env : OSEnv)
    (w : World) (p : Int) (w1 : World) (t : Int)
    (hgc : getCommand c env w = (.ok { pid := p }, w1))
    (hp : (p == 0) = false)
    (hnp : env.newProcess p = .ok ())
    (hct : env.createTime p = .ok t)
    (hcc : w1.cache.isEmpty = false) :
    ((statusOf c env w).1.toOption.map ServiceStatus.status = some .running) ∧
    (∀ s, s ∈ ((statusOf c env w).1.toOption.map ServiceStatus.ports).getD [] ↔
      (s ∈ (declaredPorts c).map (fun x => toString x) ∨
        ∃ x, x ∈ treePorts w1.cache (env.tree p) ∧ s = toString x)) := by
  have hport := doGetPorts_cache_nonempty c env (env.tree p) w1 hcc
  have hstat : statusOf c env w =
      (.ok { status := .running, pid := p, startTime := Int.tdiv t 1000
             ports := discoveredPorts (declaredPorts c) w1.cache (env.tree p) ++
               (declaredPorts c).map (fun port => toString port)
             stdoutCount := (getLogCounts env).1, stderrCount := (getLogCounts env).2 },
        w1) := by
    simp [statusOf, hgc, hp, hnp, hct, getPorts, hport]
  rw [hstat]
  refine ⟨rfl, fun s => ?_⟩
  simp only [Except.toOption, Option.map_some, Option.getD_some]
  show s ∈ discoveredPorts (declaredPorts c) w1.cache (env.tree p) ++
      (declaredPorts c).map (fun port => toString port) ↔ _
  rw [List.mem_append, mem_discoveredPorts]
  simp only [List.mem_map]
  constructor
  · rintro (⟨x, hx, _, rfl⟩ | ⟨x, hx, rfl⟩)
    · exact Or.inr ⟨x, hx, rfl⟩
    · exact Or.inl ⟨x, hx, rfl⟩
  · rintro (⟨x, hx, rfl⟩ | ⟨x, hx, rfl⟩)
    · exact Or.inr ⟨x, hx, rfl⟩
    · by_cases hk : (declaredPorts c).contains x = true
      · exact Or.inr ⟨x, by simpa using hk, rfl⟩
      · exact Or.inl ⟨x, hx, by simpa using hk, rfl⟩

/-- C5 witness: warm cache holding one LISTEN socket of the process itself;
the reported ports contain its rendering. -/
def wWarm : World :=
  { pidFile := some ("42"), cache := [{ status := ("LISTEN"), pid := 42, port := 8080 }]
    fetches := 1, clock := 0 }

/-- Like `aliveEnv` with a successful creation-time query. -/
def aliveCtEnv : OSEnv := { aliveEnv with createTime := fun _ => .ok 0 }

theorem status_ports_declared_union_discovered_witness :
    ("8080") ∈ ((statusOf apiSvc aliveCtEnv wWarm).1.toOption.map ServiceStatus.ports).getD [] := by
  refine ((status_ports_declared_union_discovered apiSvc aliveCtEnv wWarm 42
    { wWarm with clock := 1 } 0 rfl rfl rfl rfl rfl).2 ("8080")).mpr ?_
  exact Or.inr ⟨8080, by decide, rfl⟩

/-- OS snapshot whose system-wide connection fetch succeeds and returns an
empty table. -/
def c7env : OSEnv := { aliveEnv with createTime := fun _ => .ok 0 }

/-- C7 counterexample: the connection-table fetch succeeds (returning an
empty table) on a first Status sweep, yet a second port-discovery call
fetches the table again — the cache is populated only when nonempty, so a
successful fetch does not guarantee the table is never fetched again. -/
theorem connections_fetched_again_after_successful_fetch :
    c7env.connections = .ok [] ∧
    (statusOf apiSvc c7env w42).2.fetches = 1 ∧
    (statusOf apiSvc c7env ((statusOf apiSvc c7env w42).2)).2.fetches = 2 := by
  refine ⟨rfl, rfl, rfl⟩

/-- C7 amended: once the session cache holds a nonempty connection table, a
port-discovery call performs no fetch and leaves the world (cache and fetch
counter included) unchanged, succeeding with the pure reading of the cached
table; only a cache left empty (never populated, or populated by an
empty/failed fetch) triggers a fetch. -/
theorem port_discovery_reuses_nonempty_cache (c : ServiceConfig) (env : OSEnv)
    (p : ProcNode) (w : World) (hcc : w.cache.isEmpty = false) :
    (doGetPorts c env p w).2 = w ∧
    (doGetPorts c env p w).1 = .ok (discoveredPorts (declaredPorts c) w.cache p) := by
  rw [doGetPorts_cache_nonempty c env p w hcc]
  exact ⟨rfl, rfl⟩

/-- C7 witness: concrete warm-cache discovery performs no fetch. -/
theorem port_discovery_reuses_nonempty_cache_witness :
    (doGetPorts apiSvc aliveCtEnv (.node 42 true .nil) wWarm).2 = wWarm := by
  exact (port_discovery_reuses_nonempty_cache apiSvc aliveCtEnv (.node 42 true .nil)
    wWarm rfl).1

/-- C8: `Start` is exactly `Build` followed by `Launch` with short-circuit
on the first failure, and for an excluded service each of `Build`, `Launch`
and `Start` is a no-op returning success and leaving the world untouched. -/
theorem start_is_build_then_launch :
    (∀ (c : ServiceConfig) (cfg : OperationConfig) (env : OSEnv) (w : World),
      start c cfg env w = buildThenLaunch c cfg env w) ∧
    (∀ (c : ServiceConfig) (cfg : OperationConfig) (env : OSEnv) (w : World),
      cfg.isExcludedSvc c = true →
        build c cfg env w = (.ok (), w) ∧ launch c cfg env w = (.ok (), w) ∧
        start c cfg env w = (.ok (), w)) := by
  constructor
  · intro c cfg env w
    by_cases hex : cfg.isExcludedSvc c = true
    · simp [start, buildThenLaunch, build, launch, hex]
    · simp only [Bool.not_eq_true] at hex
      simp [start, buildThenLaunch, hex]
  · intro c cfg env w hex
    exact ⟨by simp [build, hex], by simp [launch, hex], by simp [start, hex]⟩

/-- C8 witness: the excluded-service no-op at a concrete service. -/
theorem start_is_build_then_launch_witness :
    build apiSvc cfgExcludeApi deadPidEnv wEmpty = (.ok (), wEmpty) ∧
    launch apiSvc cfgExcludeApi deadPidEnv wEmpty = (.ok (), wEmpty) ∧
    start apiSvc cfgExcludeApi deadPidEnv wEmpty = (.ok (), wEmpty) := by
  exact start_is_build_then_launch.2 apiSvc cfgExcludeApi deadPidEnv wEmpty rfl

/-- C9 counterexample: for a stale identity whose recorded pid (77) has no
live process, the first Status call does not return a Stopped status at all:
it fails (while still clearing the identity), contradicting the claim that
the first call returns Stopped. -/
theorem first_status_on_dead_stale_identity_fails :
    (statusOf dbSvc deadPidEnv w77).1 = .error ("process does not exist") ∧
    (statusOf dbSvc deadPidEnv w77).1.toOption = none := by
  refine ⟨rfl, rfl⟩

/-- C9 amended: for an identity stale because the recorded process is alive
but its command line does not contain the service name, the first Status
call returns Stopped and clears the persisted identity, and a second Status
call is idempotent: it returns Stopped again and performs no write at all
(the world is unchanged).  (When instead the recorded pid is dead, the
first call clears the identity but returns an error — see the
counterexample.) -/
theorem status_stale_cmdline_stopped_idempotent (c : ServiceConfig) (env : OSEnv)
    (w : World) (s : String) (p : Int) (cl : String)
    (hpf : w.pidFile = some s) (hs : atoi s = some p)
    (hal : env.pidExists w.clock p = .ok true)
    (hnp : env.newProcess p = .ok ()) (hcl : env.cmdline p = .ok cl)
    (hmm : strContains cl c.name = false) :
    statusOf c env w = (.ok stoppedStatus, { w with pidFile := none, clock := w.clock + 1 }) ∧
    statusOf c env { w with pidFile := none, clock := w.clock + 1 } =
      (.ok stoppedStatus, { w with pidFile := none, clock := w.clock + 1 }) := by
  constructor
  · simp [statusOf, getCommand, hpf, hs, hal, hnp, hcl, hmm, clearStateW, stoppedStatus]
  · simp [statusOf, getCommand, stoppedStatus]

/-- C9 witness: live process 42 running some other binary; both Status
calls return the Stopped status and the second changes nothing. -/
def wrongBinaryEnv : OSEnv := { aliveEnv with
  cmdline := fun _ => .ok ("other-binary --serve") }

theorem status_stale_cmdline_stopped_idempotent_witness :
    statusOf apiSvc wrongBinaryEnv w42 =
      (.ok stoppedStatus, { w42 with pidFile := none, clock := 1 }) ∧
    statusOf apiSvc wrongBinaryEnv { w42 with pidFile := none, clock := 1 } =
      (.ok stoppedStatus, { w42 with pidFile := none, clock := 1 }) := by
  exact status_stale_cmdline_stopped_idempotent apiSvc wrongBinaryEnv w42 ("42") 42
    ("other-binary --serve") rfl rfl rfl rfl rfl (by decide)

/-- C10: computing the log line counts cannot fail Status: when the run log
cannot be opened both counts are 0, and a line that is not a valid JSON
record contributes to neither count — the counts over any line list equal
the counts over the same list with the invalid lines removed. -/
theorem log_counts_total_and_skip_invalid :
    (∀ env : OSEnv, env.runLog = none → getLogCounts env = (0, 0)) ∧
    (∀ (lines : List LogLine) (cur : String) (so se : Nat),
      getLogCountsGo lines cur so se =
        getLogCountsGo (lines.filter (fun l => ! l.isInvalid)) cur so se) := by
  constructor
  · intro env h
    simp [getLogCounts, h]
  · intro lines
    induction lines with
    | nil => intro cur so se; rfl
    | cons l rest ih =>
      intro cur so se
      cases l with
      | invalid => simpa [getLogCountsGo, LogLine.isInvalid] using ih cur so se
      | record str => simp [getLogCountsGo, LogLine.isInvalid, ih]

/-- C10 witness: the open-failure case at a concrete environment, and a
concrete list with an invalid line counted identically to the cleaned
list. -/
theorem log_counts_total_and_skip_invalid_witness :
    getLogCounts deadPidEnv = (0, 0) ∧
    getLogCountsGo [LogLine.invalid, LogLine.record (some ("stdout"))] ("") 0 0 =
      getLogCountsGo [LogLine.record (some ("stdout"))] ("") 0 0 := by
  refine ⟨log_counts_total_and_skip_invalid.1 deadPidEnv rfl, ?_⟩
  exact log_counts_total_and_skip_invalid.2
    [LogLine.invalid, LogLine.record (some ("stdout"))] ("") 0 0

end Edward
